import Mathlib

/-!
Shallow embedding of `src/server.js` (MediaToURL): an Express backend that
proxies uploads to Cloudinary and keeps an in-memory registry of file
metadata (`filesDatabase`) plus aggregate counters (`statsDatabase`).

JavaScript strings are modelled as `String`, JS numbers used as counters as
`Int` (so that a stray `--` could in principle go negative, as in JS),
absent/`undefined` string fields as `Option String`, and the remote
Cloudinary calls as explicit outcome parameters (the registry mutations in
the handlers happen in the callback / after the `await`, so the handler is
a function of the remote outcome).
-/

/-- Model of `String.prototype.startsWith` prefix test, on the char list. -/
def listIsPre : List Char → List Char → Bool
  | [], _ => true
  | _ :: _, [] => false
  | a :: as, b :: bs => a == b && listIsPre as bs

/-- JS `s.startsWith(p)`. -/
def jsStartsWith (s p : String) : Bool :=
  listIsPre p.data s.data

/-- JS `v || d` for a possibly-absent string `v`: `undefined`/`null`/`""` are
falsy and select the default. -/
def jsOrStr (v : Option String) (d : String) : String :=
  match v with
  | none => d
  | some s => if s = "" then d else s

/-- JS `!!v` for a possibly-absent string (e.g. an environment variable). -/
def jsTruthy (v : Option String) : Bool :=
  match v with
  | none => false
  | some s => !(s == "")

/-- The metadata record built in the upload callback (`fileData`,
server.js lines 91-101).  `resourceType` is `Option String` because the
delete handler guards it with `|| 'image'`, i.e. it may be absent. -/
structure FileRecord where
  id : String
  name : String
  type : String
  size : Nat
  url : String
  thumbnail : String
  timestamp : String
  format : String
  resourceType : Option String
deriving DecidableEq, Repr

instance : Inhabited FileRecord :=
  ⟨⟨"", "", "", 0, "", "", "", "", none⟩⟩

/-- `statsDatabase` (server.js lines 34-39). -/
structure Stats where
  totalUploads : Int
  totalImages : Int
  totalVideos : Int
  totalOthers : Int
deriving DecidableEq, Repr

/-- The module-level mutable state: `filesDatabase` and `statsDatabase`. -/
structure Registry where
  files : List FileRecord
  stats : Stats
deriving DecidableEq, Repr

/-- Initial `statsDatabase` value (server.js lines 34-39). -/
def initialStats : Stats := ⟨0, 0, 0, 0⟩

/-- Initial state: `filesDatabase = []`, zeroed stats (server.js lines 33-39). -/
def initialRegistry : Registry := ⟨[], initialStats⟩

/-- The three statistics buckets. -/
inductive Bucket
  | images
  | videos
  | others
deriving DecidableEq, Repr

/-- The stats-bucket classification of a MIME type: the three-way prefix
branch both handlers apply (server.js lines 107-113 and 158-164). -/
def classify (t : String) : Bucket :=
  if jsStartsWith t "image/" then Bucket.images
  else if jsStartsWith t "video/" then Bucket.videos
  else Bucket.others

/-- Projection of the counter for one bucket. -/
def getBucket (s : Stats) : Bucket → Int
  | Bucket.images => s.totalImages
  | Bucket.videos => s.totalVideos
  | Bucket.others => s.totalOthers

/-- Add `d` to the total and to exactly the counter of bucket `b`. -/
def bumpStats (s : Stats) (b : Bucket) (d : Int) : Stats :=
  match b with
  | Bucket.images => { s with totalUploads := s.totalUploads + d,
                              totalImages := s.totalImages + d }
  | Bucket.videos => { s with totalUploads := s.totalUploads + d,
                              totalVideos := s.totalVideos + d }
  | Bucket.others => { s with totalUploads := s.totalUploads + d,
                              totalOthers := s.totalOthers + d }

/-- The stats update of the upload handler (server.js lines 106-113):
`totalUploads++` then the image/video/other if-chain on the MIME type. -/
def incrStats (s : Stats) (mimetype : String) : Stats :=
  let s1 := { s with totalUploads := s.totalUploads + 1 }
  if jsStartsWith mimetype "image/" then
    { s1 with totalImages := s1.totalImages + 1 }
  else if jsStartsWith mimetype "video/" then
    { s1 with totalVideos := s1.totalVideos + 1 }
  else
    { s1 with totalOthers := s1.totalOthers + 1 }

/-- The stats update of the delete handler (server.js lines 157-164):
`totalUploads--` then the same if-chain on the stored `file.type`. -/
def decrStats (s : Stats) (mimetype : String) : Stats :=
  let s1 := { s with totalUploads := s.totalUploads - 1 }
  if jsStartsWith mimetype "image/" then
    { s1 with totalImages := s1.totalImages - 1 }
  else if jsStartsWith mimetype "video/" then
    { s1 with totalVideos := s1.totalVideos - 1 }
  else
    { s1 with totalOthers := s1.totalOthers - 1 }

/-- The registry mutation performed by a successful upload:
`filesDatabase.unshift(fileData)` (line 103) followed by the stats update
(lines 106-113; `fileData.type` is `req.file.mimetype`). -/
def registryInsert (st : Registry) (r : FileRecord) : Registry :=
  { files := r :: st.files, stats := incrStats st.stats r.type }

/-- The fields of `req.file` the upload handler reads. -/
structure ReqFile where
  originalname : String
  mimetype : String
  size : Nat
deriving DecidableEq, Repr

/-- The fields of the Cloudinary upload `result` the handler reads.
`thumbnail_url` may be absent (it is guarded with `|| result.secure_url`). -/
structure CloudResult where
  public_id : String
  secure_url : String
  thumbnail_url : Option String
  format : String
  resource_type : String
deriving DecidableEq, Repr

/-- Outcome of the remote `upload_stream` call: the callback receives either
an error or a result (server.js line 80). -/
inductive UploadOutcome
  | err (message : String)
  | ok (result : CloudResult)
deriving DecidableEq, Repr

/-- The options object passed to `cloudinary.uploader.upload_stream`
(server.js lines 74-79). -/
structure UploadOptions where
  resource_type : String
  folder : String
  use_filename : Bool
  unique_filename : Bool
deriving DecidableEq, Repr

/-- The arguments of the `cloudinary.uploader.destroy` call
(server.js lines 152-154). -/
structure DestroyCall where
  publicId : String
  resource_type : String
deriving DecidableEq, Repr

/-- HTTP response abstraction: status code, `success` flag, `message`. -/
structure Response where
  status : Nat
  success : Bool
  message : String
deriving DecidableEq, Repr

/-- `resourceType` computation of the upload handler (server.js lines
63-70).  The initial `'auto'` value is reassigned on every branch of the
if/else-if/else chain, so it is dead. -/
def resourceTypeOf (mimetype : String) : String :=
  if jsStartsWith mimetype "video/" then "video"
  else if jsStartsWith mimetype "image/" then "image"
  else "raw"

/-- `fileData` built in the upload callback (server.js lines 91-101).
`timestamp` is the ISO string of the current date, passed in as `ts`. -/
def mkFileData (f : ReqFile) (result : CloudResult) (ts : String) : FileRecord :=
  { id := result.public_id
    name := f.originalname
    type := f.mimetype
    size := f.size
    url := result.secure_url
    thumbnail := jsOrStr result.thumbnail_url result.secure_url
    timestamp := ts
    format := result.format
    resourceType := some result.resource_type }

/-- `POST /api/upload` handler (server.js lines 53-134): returns the
response, the registry state after the request, and the options sent to the
provider (`none` when the remote call is never made). -/
def handleUpload (st : Registry) (reqFile : Option ReqFile)
    (outcome : UploadOutcome) (ts : String) :
    Response × Registry × Option UploadOptions :=
  match reqFile with
  | none => (⟨400, false, "No file uploaded"⟩, st, none)
  | some f =>
      let opts : UploadOptions :=
        ⟨resourceTypeOf f.mimetype, "uploads", true, true⟩
      match outcome with
      | UploadOutcome.err _ => (⟨500, false, "Upload failed"⟩, st, some opts)
      | UploadOutcome.ok result =>
          (⟨200, true, "File uploaded successfully"⟩,
            registryInsert st (mkFileData f result ts), some opts)

/-- Model of `Array.prototype.findIndex` (returns the first matching index;
JS returns -1, modelled as `none`). -/
def jsFindIndex (p : FileRecord → Bool) : List FileRecord → Option Nat
  | [] => none
  | f :: rest => if p f then some 0 else (jsFindIndex p rest).map (· + 1)

/-- Indexing `filesDatabase[fileIndex]`. -/
def nth : List FileRecord → Nat → Option FileRecord
  | [], _ => none
  | f :: _, 0 => some f
  | _ :: rest, n + 1 => nth rest n

/-- Model of `filesDatabase.splice(fileIndex, 1)`: drop one element at the
given index. -/
def spliceOne : List FileRecord → Nat → List FileRecord
  | [], _ => []
  | _ :: rest, 0 => rest
  | f :: rest, n + 1 => f :: spliceOne rest n

/-- `DELETE /api/files/:id` handler (server.js lines 137-183).  `destroyOk`
is the outcome of the awaited `cloudinary.uploader.destroy` call (a throw
lands in the catch block with a 500 and no mutation).  Returns the
response, the state after the request, and the destroy call made (`none`
when the remote provider is never called). -/
def handleDelete (st : Registry) (fileId : String) (destroyOk : Bool) :
    Response × Registry × Option DestroyCall :=
  match jsFindIndex (fun f => f.id == fileId) st.files with
  | none => (⟨404, false, "File not found"⟩, st, none)
  | some fileIndex =>
      let file := (nth st.files fileIndex).getD default
      let call : DestroyCall := ⟨fileId, jsOrStr file.resourceType "image"⟩
      if destroyOk then
        (⟨200, true, "File deleted successfully"⟩,
          { files := spliceOne st.files fileIndex,
            stats := decrStats st.stats file.type },
          some call)
      else
        (⟨500, false, "Delete failed"⟩, st, some call)

/-- `GET /api/files` handler (server.js lines 44-50): returns the current
sequence and a stats snapshot, with no side effect. -/
def handleGetFiles (st : Registry) : List FileRecord × Stats :=
  (st.files, st.stats)

/-- JSON values appearing in the health body. -/
inductive JVal
  | jbool (b : Bool)
  | jstr (s : String)
deriving DecidableEq, Repr

/-- `GET /api/health` handler (server.js lines 194-200): `res.json` replies
with status 200 and the body `{success, message, cloudinary}`, where the
`cloudinary` field is `!!process.env.CLOUDINARY_CLOUD_NAME`.  The body is
modelled as an ordered key-value list to capture the JSON key names. -/
def handleHealth (cloudNameEnv : Option String) : Nat × List (String × JVal) :=
  (200,
    [("success", JVal.jbool true),
     ("message", JVal.jstr "Server is running"),
     ("cloudinary", JVal.jbool (jsTruthy cloudNameEnv))])

/-- Registry operations for traces: a successful upload inserting a record,
or a delete request (which only mutates when the id is present and the
remote destroy succeeds). -/
inductive Op
  | insert (r : FileRecord)
  | remove (id : String)

/-- State transition of one operation. -/
def applyOp (st : Registry) : Op → Registry
  | Op.insert r => registryInsert st r
  | Op.remove id => (handleDelete st id true).2.1

/-- Run a sequence of operations from the empty initial state. -/
def runOps (ops : List Op) : Registry :=
  ops.foldl applyOp initialRegistry

/-- Number of records of the sequence classified into bucket `b`. -/
def countB (l : List FileRecord) (b : Bucket) : Nat :=
  match l with
  | [] => 0
  | f :: rest => (if classify f.type = b then 1 else 0) + countB rest b

/-- The counters describe the sequence exactly. -/
def statsAccurate (st : Registry) : Prop :=
  st.stats.totalUploads = (st.files.length : Int)
  ∧ st.stats.totalImages = (countB st.files Bucket.images : Int)
  ∧ st.stats.totalVideos = (countB st.files Bucket.videos : Int)
  ∧ st.stats.totalOthers = (countB st.files Bucket.others : Int)

/-- A concrete record used to instantiate theorems with hypotheses. -/
def sampleRecord : FileRecord :=
  ⟨"a", "photo.png", "image/png", 100, "https://x/a.png", "https://x/a.png",
    "2026-10-11T00:00:00.000Z", "png", some "image"⟩

/-- A concrete record with an absent `resourceType` field. -/
def sampleRecordNoRT : FileRecord :=
  ⟨"b", "doc.pdf", "application/pdf", 7, "https://x/b.pdf", "https://x/b.pdf",
    "2026-10-11T00:00:00.000Z", "pdf", none⟩

/-- A concrete one-record registry. -/
def sampleRegistry : Registry :=
  ⟨[sampleRecord], ⟨1, 1, 0, 0⟩⟩

/-- A concrete registry whose single record lacks `resourceType`. -/
def sampleRegistryNoRT : Registry :=
  ⟨[sampleRecordNoRT], ⟨1, 0, 0, 1⟩⟩

/-! ### Helper lemmas -/

theorem listIsPre_head (a : Char) (as l : List Char)
    (h : listIsPre (a :: as) l = true) :
    ∃ c cs, l = c :: cs ∧ a = c := by
  cases l with
  | nil => simp [listIsPre] at h
  | cons c cs =>
      simp only [listIsPre, Bool.and_eq_true, beq_iff_eq] at h
      exact ⟨c, cs, rfl, h.1⟩

theorem image_not_video (s : String) (h : jsStartsWith s "image/" = true) :
    jsStartsWith s "video/" = false := by
  unfold jsStartsWith at *
  by_contra hv
  rw [Bool.not_eq_false] at hv
  obtain ⟨c1, cs1, he1, hc1⟩ := listIsPre_head 'i' "mage/".data s.data h
  obtain ⟨c2, cs2, he2, hc2⟩ := listIsPre_head 'v' "ideo/".data s.data hv
  rw [he1] at he2
  injection he2 with hcc _
  subst hc1
  subst hc2
  exact absurd hcc (by decide)

theorem video_not_image (s : String) (h : jsStartsWith s "video/" = true) :
    jsStartsWith s "image/" = false := by
  by_contra hi
  rw [Bool.not_eq_false] at hi
  have := image_not_video s hi
  rw [h] at this
  cases this

theorem jsFindIndex_eq_none (p : FileRecord → Bool) (l : List FileRecord)
    (h : ∀ f ∈ l, p f = false) : jsFindIndex p l = none := by
  induction l with
  | nil => rfl
  | cons f rest ih =>
      have hf := h f (List.mem_cons_self f rest)
      simp [jsFindIndex, hf, ih fun g hg => h g (List.mem_cons_of_mem f hg)]

theorem jsFindIndex_some (p : FileRecord → Bool) (l : List FileRecord)
    (i : Nat) (h : jsFindIndex p l = some i) :
    ∃ f, nth l i = some f ∧ p f = true := by
  induction l generalizing i with
  | nil => simp [jsFindIndex] at h
  | cons f rest ih =>
      by_cases hf : p f = true
      · simp [jsFindIndex, hf] at h
        subst h
        exact ⟨f, rfl, hf⟩
      · rw [Bool.not_eq_true] at hf
        simp [jsFindIndex, hf] at h
        obtain ⟨j, hj, hji⟩ := h
        obtain ⟨g, hg, hpg⟩ := ih j hj
        subst hji
        exact ⟨g, hg, hpg⟩

theorem jsFindIndex_of_mem (p : FileRecord → Bool) (l : List FileRecord)
    (f : FileRecord) (hmem : f ∈ l) (hp : p f = true) :
    ∃ i, jsFindIndex p l = some i := by
  induction l with
  | nil => cases hmem
  | cons g rest ih =>
      by_cases hg : p g = true
      · exact ⟨0, by simp [jsFindIndex, hg]⟩
      · rw [Bool.not_eq_true] at hg
        rcases List.mem_cons.mp hmem with heq | hmem2
        · subst heq
          rw [hp] at hg
          cases hg
        · obtain ⟨i, hi⟩ := ih hmem2
          exact ⟨i + 1, by simp [jsFindIndex, hg, hi]⟩

theorem nth_mem (l : List FileRecord) (i : Nat) (f : FileRecord)
    (h : nth l i = some f) : f ∈ l := by
  induction l generalizing i with
  | nil => simp [nth] at h
  | cons g rest ih =>
      cases i with
      | zero =>
          simp [nth] at h
          subst h
          exact List.mem_cons_self g rest
      | succ n => exact List.mem_cons_of_mem g (ih n h)

theorem spliceOne_countB (l : List FileRecord) (i : Nat) (f : FileRecord)
    (b : Bucket) (h : nth l i = some f) :
    countB (spliceOne l i) b + (if classify f.type = b then 1 else 0)
      = countB l b := by
  induction l generalizing i with
  | nil => simp [nth] at h
  | cons g rest ih =>
      cases i with
      | zero =>
          simp [nth] at h
          subst h
          simp [spliceOne, countB, Nat.add_comm]
      | succ n =>
          simp only [nth] at h
          simp only [spliceOne, countB]
          rw [Nat.add_assoc, ih n h]

theorem spliceOne_length (l : List FileRecord) (i : Nat) (f : FileRecord)
    (h : nth l i = some f) :
    (spliceOne l i).length + 1 = l.length := by
  induction l generalizing i with
  | nil => simp [nth] at h
  | cons g rest ih =>
      cases i with
      | zero => simp [spliceOne]
      | succ n =>
          simp only [nth] at h
          simp only [spliceOne, List.length_cons]
          rw [ih n h]

theorem incrStats_eq_bump (s : Stats) (t : String) :
    incrStats s t = bumpStats s (classify t) 1 := by
  unfold incrStats classify bumpStats
  by_cases hi : jsStartsWith t "image/" = true
  · simp [hi]
  · rw [Bool.not_eq_true] at hi
    by_cases hv : jsStartsWith t "video/" = true
    · simp [hi, hv]
    · rw [Bool.not_eq_true] at hv
      simp [hi, hv]

theorem decrStats_eq_bump (s : Stats) (t : String) :
    decrStats s t = bumpStats s (classify t) (-1) := by
  unfold decrStats classify bumpStats
  by_cases hi : jsStartsWith t "image/" = true
  · simp [hi, Int.sub_eq_add_neg]
  · rw [Bool.not_eq_true] at hi
    by_cases hv : jsStartsWith t "video/" = true
    · simp [hi, hv, Int.sub_eq_add_neg]
    · rw [Bool.not_eq_true] at hv
      simp [hi, hv, Int.sub_eq_add_neg]

theorem statsAccurate_insert (st : Registry) (r : FileRecord)
    (h : statsAccurate st) : statsAccurate (registryInsert st r) := by
  obtain ⟨h0, h1, h2, h3⟩ := h
  unfold statsAccurate registryInsert
  rw [incrStats_eq_bump]
  cases hc : classify r.type <;>
    simp [bumpStats, countB, hc, h0, h1, h2, h3] <;> ring

theorem statsAccurate_remove (st : Registry) (fileId : String) (ok : Bool)
    (h : statsAccurate st) : statsAccurate ((handleDelete st fileId ok).2.1) := by
  obtain ⟨h0, h1, h2, h3⟩ := h
  unfold handleDelete
  cases hfind : jsFindIndex (fun f => f.id == fileId) st.files with
  | none => exact ⟨h0, h1, h2, h3⟩
  | some i =>
      obtain ⟨f, hnth, _⟩ := jsFindIndex_some _ _ i hfind
      cases ok with
      | false => exact ⟨h0, h1, h2, h3⟩
      | true =>
          simp only [hnth, Option.getD_some]
          show statsAccurate ⟨spliceOne st.files i, decrStats st.stats f.type⟩
          rw [decrStats_eq_bump]
          have hlen := spliceOne_length st.files i f hnth
          have hci := spliceOne_countB st.files i f Bucket.images hnth
          have hcv := spliceOne_countB st.files i f Bucket.videos hnth
          have hco := spliceOne_countB st.files i f Bucket.others hnth
          cases hc : classify f.type
          all_goals
            rw [hc] at hci hcv hco
            simp at hci hcv hco
            refine ⟨?_, ?_, ?_, ?_⟩ <;>
              simp only [statsAccurate, bumpStats] <;> omega

theorem statsAccurate_runOps (ops : List Op) : statsAccurate (runOps ops) := by
  have key : ∀ (l : List Op) (st : Registry), statsAccurate st →
      statsAccurate (List.foldl applyOp st l) := by
    intro l
    induction l with
    | nil => intro st hst; exact hst
    | cons op rest ih =>
        intro st hst
        apply ih
        cases op with
        | insert r => exact statsAccurate_insert st r hst
        | remove fileId => exact statsAccurate_remove st fileId true hst
  exact key ops initialRegistry ⟨rfl, rfl, rfl, rfl⟩

theorem countB_total (l : List FileRecord) :
    countB l Bucket.images + countB l Bucket.videos + countB l Bucket.others
      = l.length := by
  induction l with
  | nil => rfl
  | cons f rest ih =>
      simp only [countB, List.length_cons]
      cases classify f.type <;> simp <;> omega

/-! ### Claim theorems -/

/-- C1: for every finite sequence of insert (successful upload) and remove
(successful delete) operations applied to the registry starting from the
empty initial state, after each operation the counters satisfy
`stats.total == stats.images + stats.videos + stats.others`. -/
theorem stats_total_invariant (ops : List Op) :
    (runOps ops).stats.totalUploads =
      (runOps ops).stats.totalImages + (runOps ops).stats.totalVideos
        + (runOps ops).stats.totalOthers := by
  obtain ⟨h0, h1, h2, h3⟩ := statsAccurate_runOps ops
  rw [h0, h1, h2, h3, ← countB_total (runOps ops).files]
  push_cast
  ring

/-- C9: all four counters (total, images, videos, others) are non-negative
in every state reachable from the empty initial state by insert and remove
operations. -/
theorem stats_nonneg (ops : List Op) :
    0 ≤ (runOps ops).stats.totalUploads
  ∧ 0 ≤ (runOps ops).stats.totalImages
  ∧ 0 ≤ (runOps ops).stats.totalVideos
  ∧ 0 ≤ (runOps ops).stats.totalOthers := by
  obtain ⟨h0, h1, h2, h3⟩ := statsAccurate_runOps ops
  refine ⟨?_, ?_, ?_, ?_⟩ <;> omega

/-- C2: insert prepends the new FileRecord: after `insert(record)` an
immediate `list()` returns a sequence whose first element is that record
and whose tail is the previous sequence; the successful-upload path inserts
exactly the built `fileData` at the front. -/
theorem insert_prepends (st : Registry) (r : FileRecord) (st2 : Registry)
    (f : ReqFile) (result : CloudResult) (ts : String) :
    (handleGetFiles (registryInsert st r)).1.head? = some r
  ∧ (handleGetFiles (registryInsert st r)).1.tail = (handleGetFiles st).1
  ∧ (handleUpload st2 (some f) (UploadOutcome.ok result) ts).2.1.files
      = mkFileData f result ts :: st2.files :=
  ⟨rfl, rfl, rfl⟩

/-- C5: the resource type sent to the remote provider is computed from the
MIME type (`video` for a `video/` prefix, `image` for an `image/` prefix,
`raw` otherwise), and the initial `auto` value is never the one sent. -/
theorem upload_resource_type (st : Registry) (f : ReqFile)
    (outcome : UploadOutcome) (ts : String) :
    (handleUpload st (some f) outcome ts).2.2
      = some ⟨resourceTypeOf f.mimetype, "uploads", true, true⟩
  ∧ (jsStartsWith f.mimetype "video/" = true →
      resourceTypeOf f.mimetype = "video")
  ∧ (jsStartsWith f.mimetype "image/" = true →
      resourceTypeOf f.mimetype = "image")
  ∧ (jsStartsWith f.mimetype "video/" = false →
      jsStartsWith f.mimetype "image/" = false →
      resourceTypeOf f.mimetype = "raw")
  ∧ resourceTypeOf f.mimetype ≠ "auto" := by
  refine ⟨?_, ?_, ?_, ?_, ?_⟩
  · cases outcome <;> rfl
  · intro hv
    simp [resourceTypeOf, hv]
  · intro hi
    have hv := image_not_video f.mimetype hi
    simp [resourceTypeOf, hv, hi]
  · intro hv hi
    simp [resourceTypeOf, hv, hi]
  · unfold resourceTypeOf
    by_cases hv : jsStartsWith f.mimetype "video/" = true
    · simp only [hv, if_true]
      decide
    · rw [Bool.not_eq_true] at hv
      by_cases hi : jsStartsWith f.mimetype "image/" = true
      · simp only [hv, hi, Bool.false_eq_true, if_false, if_true]
        decide
      · rw [Bool.not_eq_true] at hi
        simp only [hv, hi, Bool.false_eq_true, if_false]
        decide

/-- C5 witness: a video MIME type is routed as `video` at a concrete input. -/
theorem upload_resource_type_w :
    resourceTypeOf "video/mp4" = "video" :=
  (upload_resource_type initialRegistry ⟨"clip.mp4", "video/mp4", 5⟩
      (UploadOutcome.err "boom") "2026-10-11T00:00:00.000Z").2.1 (by decide)

/-- Inserting and then removing a record of the same bucket restores the
counters (`+1` then `-1` on total and on that bucket). -/
theorem bump_bump_cancel (s : Stats) (b : Bucket) :
    bumpStats (bumpStats s b 1) b (-1) = s := by
  cases s
  cases b <;> simp [bumpStats]

/-- C4: the stats-bucket classification is a pure three-way function of the
MIME type (image prefix, video prefix, anything else), applied identically
by the insert and remove stats updates; per mutation the total moves by one
and exactly the classified bucket counter moves by one. -/
theorem stats_bucket_classification (s : Stats) (t : String) (b : Bucket) :
    (incrStats s t).totalUploads = s.totalUploads + 1
  ∧ (decrStats s t).totalUploads = s.totalUploads - 1
  ∧ getBucket (incrStats s t) b
      = getBucket s b + (if b = classify t then 1 else 0)
  ∧ getBucket (decrStats s t) b
      = getBucket s b - (if b = classify t then 1 else 0)
  ∧ (jsStartsWith t "image/" = true → classify t = Bucket.images)
  ∧ (jsStartsWith t "video/" = true → classify t = Bucket.videos)
  ∧ (jsStartsWith t "image/" = false → jsStartsWith t "video/" = false →
      classify t = Bucket.others) := by
  refine ⟨?_, ?_, ?_, ?_, ?_, ?_, ?_⟩
  · rw [incrStats_eq_bump]
    cases classify t <;> simp [bumpStats]
  · rw [decrStats_eq_bump]
    cases classify t <;> simp [bumpStats] <;> omega
  · rw [incrStats_eq_bump]
    cases hc : classify t <;> cases b <;> simp [bumpStats, getBucket, hc]
  · rw [decrStats_eq_bump]
    cases hc : classify t <;> cases b <;> simp [bumpStats, getBucket, hc] <;>
      omega
  · intro hi
    simp [classify, hi]
  · intro hv
    have hi := video_not_image t hv
    simp [classify, hi, hv]
  · intro hi hv
    simp [classify, hi, hv]

/-- C4 witness: concrete classifications, e.g. a video type is classified
into the videos bucket by both updates. -/
theorem stats_bucket_classification_w :
    classify "video/mp4" = Bucket.videos ∧ classify "image/png" = Bucket.images
  ∧ classify "application/pdf" = Bucket.others :=
  ⟨(stats_bucket_classification initialStats "video/mp4"
      Bucket.videos).2.2.2.2.2.1 (by decide),
   (stats_bucket_classification initialStats "image/png"
      Bucket.images).2.2.2.2.1 (by decide),
   (stats_bucket_classification initialStats "application/pdf"
      Bucket.others).2.2.2.2.2.2 (by decide) (by decide)⟩

/-- C3: removing an id with no record present responds 404 "file not
found", performs no mutation (sequence and counters unchanged), and never
calls the remote storage provider. -/
theorem remove_absent_noop (st : Registry) (fileId : String)
    (destroyOk : Bool) (h : ∀ f ∈ st.files, f.id ≠ fileId) :
    handleDelete st fileId destroyOk
      = (⟨404, false, "File not found"⟩, st, none) := by
  have hnone : jsFindIndex (fun f => f.id == fileId) st.files = none :=
    jsFindIndex_eq_none _ _ (fun f hf => by simp [h f hf])
  unfold handleDelete
  rw [hnone]

/-- C3 witness: deleting an unknown id from a concrete one-record registry
is a 404 no-op with no remote call. -/
theorem remove_absent_noop_w :
    handleDelete sampleRegistry "zzz" true
      = (⟨404, false, "File not found"⟩, sampleRegistry, none) :=
  remove_absent_noop sampleRegistry "zzz" true (by decide)

/-- C6: inserting a not-yet-present record and immediately removing its id
is a round trip: the sequence returns to its previous contents and the
counters are restored (the bucket insert incremented is the one remove
decrements). -/
theorem insert_remove_roundtrip (st : Registry) (r : FileRecord)
    (_h : ∀ f ∈ st.files, f.id ≠ r.id) :
    (handleDelete (registryInsert st r) r.id true).2.1.files = st.files
  ∧ (handleDelete (registryInsert st r) r.id true).2.1.stats = st.stats := by
  constructor
  · simp [handleDelete, registryInsert, jsFindIndex, nth, spliceOne]
  · simp [handleDelete, registryInsert, jsFindIndex, nth, spliceOne]
    rw [incrStats_eq_bump, decrStats_eq_bump]
    exact bump_bump_cancel st.stats (classify r.type)

/-- C6 witness: the round trip at a concrete record on the empty state. -/
theorem insert_remove_roundtrip_w :
    (handleDelete (registryInsert initialRegistry sampleRecord)
        sampleRecord.id true).2.1.files = initialRegistry.files
  ∧ (handleDelete (registryInsert initialRegistry sampleRecord)
        sampleRecord.id true).2.1.stats = initialRegistry.stats :=
  insert_remove_roundtrip initialRegistry sampleRecord (by decide)

/-- C7: registry mutations happen only after the corresponding remote call
succeeds: a failed remote upload inserts nothing (500, state unchanged),
and a failed remote destroy leaves the sequence and counters unchanged
(500 when the record was present); no error case leaves the registry
partially mutated. -/
theorem no_partial_mutation (st : Registry) (f : ReqFile) (e ts : String)
    (fileId : String) :
    (handleUpload st (some f) (UploadOutcome.err e) ts).1.status = 500
  ∧ (handleUpload st (some f) (UploadOutcome.err e) ts).2.1 = st
  ∧ (handleDelete st fileId false).2.1 = st
  ∧ ((∃ g ∈ st.files, g.id = fileId) →
      (handleDelete st fileId false).1.status = 500) := by
  refine ⟨rfl, rfl, ?_, ?_⟩
  · unfold handleDelete
    cases hfind : jsFindIndex (fun g => g.id == fileId) st.files with
    | none => rfl
    | some i => rfl
  · rintro ⟨g, hmem, hid⟩
    obtain ⟨i, hi⟩ :=
      jsFindIndex_of_mem (fun g => g.id == fileId) st.files g hmem
        (by simp [hid])
    unfold handleDelete
    rw [hi]
    rfl

/-- C7 witness: a failed remote destroy of a present record is a 500 whose
state component is the unchanged registry. -/
theorem no_partial_mutation_w :
    (handleDelete sampleRegistry "a" false).1.status = 500
  ∧ (handleDelete sampleRegistry "a" false).2.1 = sampleRegistry :=
  ⟨(no_partial_mutation sampleRegistry ⟨"x.txt", "text/plain", 1⟩ "boom"
      "2026-10-11T00:00:00.000Z" "a").2.2.2 ⟨sampleRecord, by decide, rfl⟩,
   (no_partial_mutation sampleRegistry ⟨"x.txt", "text/plain", 1⟩ "boom"
      "2026-10-11T00:00:00.000Z" "a").2.2.1⟩

/-- C10: deleting a present record calls the remote destroy with the
resource type stored in that record at insertion time (the
provider-reported `resource_type`), defaulting to the literal `image`
whenever the stored `resourceType` is absent or falsy, regardless of the
record's MIME type. -/
theorem destroy_resource_type (st : Registry) (fileId : String)
    (destroyOk : Bool) (h : ∃ g ∈ st.files, g.id = fileId) :
    (∃ g, g ∈ st.files ∧ g.id = fileId
      ∧ (handleDelete st fileId destroyOk).2.2
          = some ⟨fileId, jsOrStr g.resourceType "image"⟩)
  ∧ (∀ rt : Option String, rt = none ∨ rt = some "" →
      jsOrStr rt "image" = "image")
  ∧ (∀ (f : ReqFile) (result : CloudResult) (ts : String),
      (mkFileData f result ts).resourceType = some result.resource_type) := by
  refine ⟨?_, ?_, fun f result ts => rfl⟩
  · obtain ⟨g0, hmem0, hid0⟩ := h
    obtain ⟨i, hi⟩ :=
      jsFindIndex_of_mem (fun g => g.id == fileId) st.files g0 hmem0
        (by simp [hid0])
    obtain ⟨g, hnth, hpg⟩ := jsFindIndex_some _ st.files i hi
    refine ⟨g, nth_mem st.files i g hnth, by simpa using hpg, ?_⟩
    unfold handleDelete
    rw [hi]
    simp only [hnth, Option.getD_some]
    cases destroyOk <;> rfl
  · rintro rt (rfl | rfl) <;> rfl

/-- C10 witness: destroying a concrete record that lacks `resourceType`
sends the literal `image` even though its MIME type is `application/pdf`. -/
theorem destroy_resource_type_w :
    (∃ g, g ∈ sampleRegistryNoRT.files ∧ g.id = "b"
      ∧ (handleDelete sampleRegistryNoRT "b" true).2.2
          = some ⟨"b", jsOrStr g.resourceType "image"⟩)
  ∧ (∀ rt : Option String, rt = none ∨ rt = some "" →
      jsOrStr rt "image" = "image")
  ∧ (∀ (f : ReqFile) (result : CloudResult) (ts : String),
      (mkFileData f result ts).resourceType = some result.resource_type) :=
  destroy_resource_type sampleRegistryNoRT "b" true
    ⟨sampleRecordNoRT, by decide, rfl⟩

/-- C8 counterexample: the health body has no field named
`cloudinaryConfigured`; the boolean field is named `cloudinary`. -/
theorem health_field_name_cex :
    (handleHealth (some "demo")).2.lookup "cloudinaryConfigured" = none
  ∧ (handleHealth (some "demo")).2.lookup "cloudinary"
      = some (JVal.jbool true) := by
  decide

/-- C8 (amended): GET /api/health always succeeds (status 200) with the
JSON body `{success:true, message, cloudinary:boolean}` whose boolean field
named `cloudinary` reports whether the provider account identifier
environment variable is set to a non-empty string. -/
theorem health_response (env : Option String) :
    (handleHealth env).1 = 200
  ∧ (handleHealth env).2
      = [("success", JVal.jbool true),
         ("message", JVal.jstr "Server is running"),
         ("cloudinary", JVal.jbool (jsTruthy env))]
  ∧ ((handleHealth env).2.lookup "cloudinary" = some (JVal.jbool true)
      ↔ ∃ s, env = some s ∧ s ≠ "") := by
  refine ⟨rfl, rfl, ?_⟩
  cases env with
  | none => simp [handleHealth, jsTruthy, List.lookup]
  | some s =>
      by_cases hs : s = ""
      · subst hs
        simp [handleHealth, jsTruthy, List.lookup]
      · simp [handleHealth, jsTruthy, List.lookup, hs]

/-- C8 witness: with the account identifier set to a non-empty value the
`cloudinary` field is true. -/
theorem health_response_w :
    (handleHealth (some "demo")).2.lookup "cloudinary"
      = some (JVal.jbool true) :=
  (health_response (some "demo")).2.2.mpr ⟨"demo", rfl, by decide⟩
